import Mathlib

/-!
Verification of the Cognitive Emergence Protocol engine
(`src/backend/server.py` of the `emergent-v2` repository).

The numeric engine of the source operates on Python floats.  We embed
those values as exact rationals (`ℚ`); the one genuinely irrational
operation, the Euclidean norm `np.linalg.norm` used inside
`cosine_similarity`, is embedded through `Real.sqrt`, so cosine scores
live in `ℝ`.  Collections are Lean lists, the Mongo document store is a
list of records queried by `find?`, and the two external collaborators
(the generative text model and the embedding endpoint) are explicit
oracle parameters: a call that raises or returns malformed JSON is an
oracle answering `none`.
-/

/-- Valence record: three scalars (curiosity, certainty, dissonance).
Mirrors the `Valence` pydantic model of `server.py`. -/
structure Valence where
  curiosity : ℚ
  certainty : ℚ
  dissonance : ℚ
deriving DecidableEq

/-- The three valence components all lie in the unit interval. -/
def valence_bounded (v : Valence) : Prop :=
  0 ≤ v.curiosity ∧ v.curiosity ≤ 1 ∧
  0 ≤ v.certainty ∧ v.certainty ≤ 1 ∧
  0 ≤ v.dissonance ∧ v.dissonance ≤ 1

instance (v : Valence) : Decidable (valence_bounded v) := by
  unfold valence_bounded; infer_instance

/-- `average_valence` from `server.py`: arithmetic mean per dimension,
neutral point `(0.5, 0.5, 0.5)` on the empty list. -/
def average_valence (valences : List Valence) : Valence :=
  if valences = [] then
    { curiosity := 0.5, certainty := 0.5, dissonance := 0.5 }
  else
    { curiosity := (valences.map Valence.curiosity).sum / (valences.length : ℚ)
      certainty := (valences.map Valence.certainty).sum / (valences.length : ℚ)
      dissonance := (valences.map Valence.dissonance).sum / (valences.length : ℚ) }

/-- Python's `sep.join(parts)`. -/
def joinSep (sep : String) : List String → String
  | [] => ""
  | [c] => c
  | c :: cs => c ++ sep ++ joinSep sep cs

/-- `synthesize_content` from `server.py` (deterministic fallback):
`f"SYNTHESIS: {' ⋈ '.join(contents)}"`. -/
def synthesize_content (contents : List String) : String :=
  "SYNTHESIS: " ++ joinSep " ⋈ " contents

/-- `apply_transformation_phase` from `server.py` (deterministic fallback):
table-driven valence delta per phase, clamped to `[0, 1]`. -/
def apply_transformation_phase (valence : Valence) (phase : String) : Valence :=
  if phase = "Shattering" then
    { valence with
      dissonance := min 1 (valence.dissonance + 0.2)
      certainty := max 0 (valence.certainty - 0.1) }
  else if phase = "Remembering" then
    { valence with curiosity := min 1 (valence.curiosity + 0.2) }
  else if phase = "Re-feeling" then
    { valence with dissonance := max 0 (valence.dissonance - 0.2) }
  else if phase = "Re-centering" then
    { valence with certainty := min 1 (valence.certainty + 0.2) }
  else if phase = "Becoming" then
    { valence with
      certainty := min 1 (valence.certainty + 0.2)
      dissonance := max 0 (valence.dissonance - 0.1) }
  else valence

/-- `generate_transformation_content` from `server.py` (deterministic
fallback): `f"{phase.upper()}: {original_content} [ANOMALY: {anomaly}]"`. -/
def generate_transformation_content (original_content : String) (phase : String)
    (anomaly : String) : String :=
  phase.toUpper ++ ": " ++ original_content ++ " [ANOMALY: " ++ anomaly ++ "]"

/-- `valence_similarity` from `server.py`: `max(0, 1 - L1/3)`. -/
def valence_similarity (v1 v2 : Valence) : ℚ :=
  max 0 (1 - (|v1.curiosity - v2.curiosity| +
              |v1.certainty - v2.certainty| +
              |v1.dissonance - v2.dissonance|) / 3)

/-- `np.dot` on equal-length vectors: the sum of componentwise products. -/
def dotQ (a b : List ℚ) : ℚ :=
  ((a.zip b).map (fun p => p.1 * p.2)).sum

open Classical in
/-- `cosine_similarity` from `server.py`: `0.0` on an empty vector, a
length mismatch, or a zero norm; otherwise the normalised dot product.
`np.linalg.norm` is the square root of the self dot product. -/
noncomputable def cosine_similarity (a b : List ℚ) : ℝ :=
  if a = [] ∨ b = [] ∨ a.length ≠ b.length then 0
  else
    let norm_a := Real.sqrt ((dotQ a a : ℚ) : ℝ)
    let norm_b := Real.sqrt ((dotQ b b : ℚ) : ℝ)
    if norm_a = 0 ∨ norm_b = 0 then 0
    else ((dotQ a b : ℚ) : ℝ) / (norm_a * norm_b)

/-- `MemorySuggestion` response model of `server.py` (the `timestamp`
field carries no information used by the engine and is omitted). -/
structure MemorySuggestion where
  id : String
  content : String
  similarity : ℝ
  valence_score : ℝ
  final_score : ℝ
  agent_id : String
  valence : Valence

/-- Descending comparison on final scores, the key order used by
`suggestions.sort(key=lambda x: x.final_score, reverse=True)`. -/
def score_ge (a b : MemorySuggestion) : Prop :=
  b.final_score ≤ a.final_score

noncomputable instance : DecidableRel score_ge :=
  fun _ _ => Classical.propDecidable _

instance : IsTotal MemorySuggestion score_ge :=
  ⟨fun a b => le_total b.final_score a.final_score⟩

instance : IsTrans MemorySuggestion score_ge :=
  ⟨fun _ _ _ h1 h2 => le_trans h2 h1⟩

/-- `T-unit` entity of `server.py`.  The creation timestamp and the
`embedding_model` tag play no role in any engine computation and are
omitted; embeddings are rational vectors (`None` for absent). -/
structure TUnit where
  id : String
  content : String
  valence : Valence
  parents : List String
  children : List String
  linkage : String
  phase : Option String
  agent_id : String
  ai_generated : Bool
  embedding : Option (List ℚ)
deriving DecidableEq

/-- `get_or_create_embedding` from `server.py`, with the embedding
collaborator as the oracle `embed`.  Python's `if t_unit.embedding:`
treats an empty cached vector as absent, so an empty list is also
regenerated.  (The source additionally writes a freshly generated
embedding back to the store; that cache write does not influence the
suggestion list returned by the engine and is not modelled.) -/
def get_or_create_embedding (embed : String → Option (List ℚ)) (t_unit : TUnit) :
    Option (List ℚ) :=
  match t_unit.embedding with
  | some e => if e.isEmpty then embed t_unit.content else some e
  | none => embed t_unit.content

/-- Scoring of one candidate inside `find_memory_suggestions`: skip the
candidate when no embedding can be obtained, otherwise combine semantic
and valence similarity with weight `valence_weight`. -/
noncomputable def score_candidate (embed : String → Option (List ℚ))
    (target_embedding : List ℚ) (target_valence : Valence) (valence_weight : ℝ)
    (candidate : TUnit) : Option MemorySuggestion :=
  match get_or_create_embedding embed candidate with
  | none => none
  | some candidate_embedding =>
    let semantic_sim := cosine_similarity target_embedding candidate_embedding
    let valence_sim : ℝ := ((valence_similarity target_valence candidate.valence : ℚ) : ℝ)
    some { id := candidate.id
           content := candidate.content
           similarity := semantic_sim
           valence_score := valence_sim
           final_score := semantic_sim * (1 - valence_weight) + valence_sim * valence_weight
           agent_id := candidate.agent_id
           valence := candidate.valence }

/-- The scored candidate list of `find_memory_suggestions`, in the pool's
original enumeration order: the Mongo query keeps candidates whose id
differs from the target's and, unless `include_cross_agent`, whose agent
matches; candidates without an embedding are silently skipped. -/
noncomputable def scored_suggestions (embed : String → Option (List ℚ))
    (target : TUnit) (agent_id : String) (pool : List TUnit)
    (include_cross_agent : Bool) (valence_weight : ℝ) : List MemorySuggestion :=
  match get_or_create_embedding embed target with
  | none => []
  | some target_embedding =>
    (pool.filter (fun u => u.id != target.id &&
        (include_cross_agent || u.agent_id == agent_id))).filterMap
      (score_candidate embed target_embedding target.valence valence_weight)

/-- `find_memory_suggestions` from `server.py`: score the candidate pool,
sort by final score descending (Python's `list.sort` is stable, which is
exactly `List.insertionSort` on the `score_ge` key order), truncate to
`limit`.  A target without an embedding yields the empty list. -/
noncomputable def find_memory_suggestions (embed : String → Option (List ℚ))
    (target : TUnit) (agent_id : String) (pool : List TUnit) (lim : Nat)
    (include_cross_agent : Bool) (valence_weight : ℝ) : List MemorySuggestion :=
  ((scored_suggestions embed target agent_id pool include_cross_agent
      valence_weight).insertionSort score_ge).take lim

/-- Audit `Event` entity of `server.py` (timestamp and the free-form
metadata mapping are not inspected by any claim and are omitted). -/
structure Event where
  id : String
  type : String
  t_unit_id : String
  agent_id : String
deriving DecidableEq

/-- The Mongo document store: the `t_units` and `events` collections as
insertion-ordered lists. -/
structure Store where
  t_units : List TUnit
  events : List Event
deriving DecidableEq

/-- `db.t_units.find_one({"id": i})`: first unit carrying id `i`. -/
def find_one (units : List TUnit) (i : String) : Option TUnit :=
  units.find? (fun u => u.id == i)

/-- `db.t_units.update_one(filter, update)`: rewrite the first matching
document, leave the rest untouched. -/
def update_first (p : TUnit → Bool) (f : TUnit → TUnit) : List TUnit → List TUnit
  | [] => []
  | u :: us => if p u then f u :: us else u :: update_first p f us

/-- `update_one({"id": i}, {"$push": {"children": ...}})`: append the
given child ids to the children list of the first unit with id `i`. -/
def push_children (i : String) (cids : List String) (units : List TUnit) : List TUnit :=
  update_first (fun u => u.id == i) (fun u => { u with children := u.children ++ cids }) units

/-- `SynthesisRequest` model of `server.py`. -/
structure SynthesisRequest where
  t_unit_ids : List String
  use_ai : Bool
  recalled_ids : List String

/-- `TransformationRequest` model of `server.py`. -/
structure TransformationRequest where
  t_unit_id : String
  anomaly : String
  use_ai : Bool
  recalled_ids : List String

/-- `MultiAgentExchange` model of `server.py`. -/
structure MultiAgentExchange where
  source_agent_id : String
  target_agent_id : String
  t_unit_id : String
  exchange_type : String

/-- The user-visible failures of the API layer (`HTTPException`s). -/
inductive ApiError where
  | notFound
  | insufficientInput
deriving DecidableEq

/-- `ai_synthesize_content` from `server.py`.  The generative collaborator
is the oracle value `resp`: `some` is a well-parsed `{content, valence}`
response, `none` is a raised error or malformed JSON, in which case the
`except` branch returns the deterministic fallback.  (The recalled-memory
context only shapes the prompt sent to the collaborator, hence is part of
the oracle, not of this function's result.) -/
def ai_synthesize_content (resp : Option (String × Valence)) (contents : List String)
    (valences : List Valence) : String × Valence :=
  match resp with
  | some r => r
  | none => (synthesize_content contents, average_valence valences)

/-- `ai_transform_content` from `server.py`, same oracle convention as
`ai_synthesize_content`: on failure fall back to the deterministic
content and valence rules for this phase. -/
def ai_transform_content (resp : Option (String × Valence)) (original_content : String)
    (original_valence : Valence) (phase anomaly : String) : String × Valence :=
  match resp with
  | some r => r
  | none => (generate_transformation_content original_content phase anomaly,
             apply_transformation_phase original_valence phase)

/-- The `/api/synthesize` endpoint (`synthesize_t_units` in `server.py`).
`oracle` is the generative collaborator's response for this call,
`new_id` and `ev_id` the freshly drawn uuids for the created unit and the
audit event.  Resolving fewer than 2 of the requested ids raises the
insufficient-input error with the store untouched; otherwise the new unit
is built (AI path or deterministic path), every requested parent gains
the new id in its children list, and unit plus event are inserted. -/
def synthesize_t_units (oracle : Option (String × Valence))
    (embed : String → Option (List ℚ)) (new_id ev_id : String)
    (request : SynthesisRequest) (s : Store) : Except ApiError TUnit × Store :=
  let t_units := request.t_unit_ids.filterMap (find_one s.t_units)
  match t_units with
  | first :: _ :: _ =>
    let contents := t_units.map TUnit.content
    let valences := t_units.map TUnit.valence
    let result :=
      if request.use_ai then
        (ai_synthesize_content oracle contents valences, true)
      else
        ((synthesize_content contents, average_valence valences), false)
    let new_t_unit : TUnit :=
      { id := new_id
        content := result.1.1
        valence := result.1.2
        parents := request.t_unit_ids
        children := []
        linkage := "generative"
        phase := none
        agent_id := first.agent_id
        ai_generated := result.2
        embedding := embed result.1.1 }
    let units1 := request.t_unit_ids.foldl
      (fun us i => push_children i [new_t_unit.id] us) s.t_units
    let event : Event :=
      { id := ev_id, type := "synthesis", t_unit_id := new_t_unit.id
        agent_id := first.agent_id }
    (Except.ok new_t_unit,
     { t_units := units1 ++ [new_t_unit], events := s.events ++ [event] })
  | _ => (Except.error ApiError.insufficientInput, s)

/-- The fixed phase sequence of the transformation loop. -/
def phases : List String := ["Shattering", "Remembering", "Re-feeling", "Re-centering", "Becoming"]

/-- One iteration of the transformation loop of `server.py`: build the
phase unit for `phase` from the ORIGINAL unit's content and valence
(never from a previous phase's output). -/
def transform_phase_unit (oracle : String → Option (String × Valence))
    (embed : String → Option (List ℚ)) (use_ai : Bool) (anomaly : String)
    (original : TUnit) (request_t_unit_id : String) (new_id phase : String) : TUnit :=
  let result :=
    if use_ai then
      (ai_transform_content (oracle phase) original.content original.valence phase anomaly, true)
    else
      ((generate_transformation_content original.content phase anomaly,
        apply_transformation_phase original.valence phase), false)
  { id := new_id
    content := result.1.1
    valence := result.1.2
    parents := [request_t_unit_id]
    children := []
    linkage := "transformational"
    phase := some phase
    agent_id := original.agent_id
    ai_generated := result.2
    embedding := embed result.1.1 }

/-- The five phase units returned by a transformation call, in the fixed
phase order; `fid k` is the uuid drawn for the `k`-th phase unit. -/
def transform_new_units (oracle : String → Option (String × Valence))
    (embed : String → Option (List ℚ)) (fid : Nat → String)
    (request : TransformationRequest) (original : TUnit) : List TUnit :=
  phases.enum.map (fun p =>
    transform_phase_unit oracle embed request.use_ai request.anomaly original
      request.t_unit_id (fid p.1) p.2)

/-- The `/api/transform` endpoint (`transform_t_unit` in `server.py`):
resolve the original unit (404 on a miss, store untouched), create one
unit and one audit event per phase, then append all five new ids to the
original unit's children in one batch push. -/
def transform_t_unit (oracle : String → Option (String × Valence))
    (embed : String → Option (List ℚ)) (fid eid : Nat → String)
    (request : TransformationRequest) (s : Store) :
    Except ApiError (List TUnit) × Store :=
  match find_one s.t_units request.t_unit_id with
  | none => (Except.error ApiError.notFound, s)
  | some original =>
    let new_units := transform_new_units oracle embed fid request original
    let child_ids := new_units.map TUnit.id
    (Except.ok new_units,
     { t_units := push_children request.t_unit_id child_ids (s.t_units ++ new_units)
       events := s.events ++ new_units.enum.map (fun p =>
         { id := eid p.1, type := "transformation", t_unit_id := p.2.id
           agent_id := original.agent_id }) })

/-- The `/api/multi-agent/exchange` endpoint (`multi_agent_exchange` in
`server.py`): copy the unit for the target agent, with the original as
sole parent; the source reads the original but never updates it. -/
def multi_agent_exchange (new_id ev_id : String) (exchange : MultiAgentExchange)
    (s : Store) : Except ApiError String × Store :=
  match find_one s.t_units exchange.t_unit_id with
  | none => (Except.error ApiError.notFound, s)
  | some original =>
    let exchanged : TUnit :=
      { id := new_id
        content := "[RECEIVED] " ++ original.content
        valence := original.valence
        parents := [original.id]
        children := []
        linkage := "exchanged"
        phase := none
        agent_id := exchange.target_agent_id
        ai_generated := false
        embedding := none }
    let event : Event :=
      { id := ev_id, type := "multi_agent_exchange", t_unit_id := exchanged.id
        agent_id := exchange.target_agent_id }
    (Except.ok exchanged.id,
     { t_units := s.t_units ++ [exchanged], events := s.events ++ [event] })

lemma dotQ_nil_left (b : List ℚ) : dotQ [] b = 0 := by
  simp [dotQ]

lemma dotQ_nil_right (a : List ℚ) : dotQ a [] = 0 := by
  simp [dotQ]

lemma dotQ_cons (x y : ℚ) (a b : List ℚ) :
    dotQ (x :: a) (y :: b) = x * y + dotQ a b := by
  simp [dotQ]

lemma dotQ_self_nonneg (a : List ℚ) : 0 ≤ dotQ a a := by
  induction a with
  | nil => simp [dotQ]
  | cons x a ih =>
    rw [dotQ_cons]
    nlinarith [mul_self_nonneg x]

lemma cosine_similarity_eq (a b : List ℚ)
    (h : ¬(a = [] ∨ b = [] ∨ a.length ≠ b.length)) :
    cosine_similarity a b =
      if Real.sqrt ((dotQ a a : ℚ) : ℝ) = 0 ∨ Real.sqrt ((dotQ b b : ℚ) : ℝ) = 0 then 0
      else ((dotQ a b : ℚ) : ℝ) /
        (Real.sqrt ((dotQ a a : ℚ) : ℝ) * Real.sqrt ((dotQ b b : ℚ) : ℝ)) := by
  unfold cosine_similarity
  rw [if_neg h]

/-- C3: `apply_transformation_phase` applies the fixed per-phase delta,
clamped to the unit interval; the output stays in bounds for every phase
string, and the two sample evaluations of the spec hold. -/
theorem claim_C3 (v : Valence) (hv : valence_bounded v) :
    apply_transformation_phase v "Shattering" =
      { v with certainty := max 0 (v.certainty - 0.1)
               dissonance := min 1 (v.dissonance + 0.2) } ∧
    apply_transformation_phase v "Remembering" =
      { v with curiosity := min 1 (v.curiosity + 0.2) } ∧
    apply_transformation_phase v "Re-feeling" =
      { v with dissonance := max 0 (v.dissonance - 0.2) } ∧
    apply_transformation_phase v "Re-centering" =
      { v with certainty := min 1 (v.certainty + 0.2) } ∧
    apply_transformation_phase v "Becoming" =
      { v with certainty := min 1 (v.certainty + 0.2)
               dissonance := max 0 (v.dissonance - 0.1) } ∧
    (∀ phase : String, valence_bounded (apply_transformation_phase v phase)) ∧
    apply_transformation_phase ⟨0.5, 0.5, 0.5⟩ "Shattering" = ⟨0.5, 0.4, 0.7⟩ ∧
    apply_transformation_phase ⟨0.5, 0.5, 0.5⟩ "Becoming" = ⟨0.5, 0.7, 0.4⟩ := by
  obtain ⟨h1, h2, h3, h4, h5, h6⟩ := hv
  refine ⟨by simp [apply_transformation_phase], by simp [apply_transformation_phase],
    by simp [apply_transformation_phase], by simp [apply_transformation_phase],
    by simp [apply_transformation_phase],
    ?_,
    by
      unfold apply_transformation_phase
      rw [if_pos rfl]
      norm_num [min_def, max_def],
    by
      unfold apply_transformation_phase
      rw [if_neg (by decide), if_neg (by decide), if_neg (by decide), if_neg (by decide)]
      norm_num [min_def, max_def]⟩
  intro phase
  unfold apply_transformation_phase valence_bounded
  split_ifs <;> (try dsimp only) <;>
    refine ⟨?_, ?_, ?_, ?_, ?_, ?_⟩ <;>
    (try simp only [le_max_iff, max_le_iff, le_min_iff, min_le_iff]) <;>
    first
      | assumption
      | (left; linarith)
      | (right; linarith)
      | (constructor <;> linarith)

/-- Witness for C3 at the neutral valence. -/
theorem claim_C3_witness :
    valence_bounded ⟨0.5, 0.5, 0.5⟩ ∧
    apply_transformation_phase ⟨0.5, 0.5, 0.5⟩ "Shattering" = ⟨0.5, 0.4, 0.7⟩ :=
  ⟨by unfold valence_bounded; norm_num,
   (claim_C3 ⟨0.5, 0.5, 0.5⟩ (by unfold valence_bounded; norm_num)).2.2.2.2.2.2.1⟩

/-- C8: `cosine_similarity` returns 0 on an empty vector, mismatched
lengths, or a zero-norm vector (a vector whose self dot product is 0 is
exactly a vector of norm 0), and `average_valence` of the empty list is
the neutral point. -/
theorem claim_C8 :
    (∀ a b : List ℚ, a = [] ∨ b = [] ∨ a.length ≠ b.length →
      cosine_similarity a b = 0) ∧
    (∀ a b : List ℚ, dotQ a a = 0 ∨ dotQ b b = 0 → cosine_similarity a b = 0) ∧
    average_valence [] = ⟨0.5, 0.5, 0.5⟩ := by
  refine ⟨?_, ?_, by simp [average_valence]⟩
  · intro a b h
    unfold cosine_similarity
    rw [if_pos h]
  · intro a b h
    by_cases hg : a = [] ∨ b = [] ∨ a.length ≠ b.length
    · unfold cosine_similarity
      rw [if_pos hg]
    · rw [cosine_similarity_eq a b hg]
      rw [if_pos ?_]
      rcases h with h | h <;> [left; right] <;> rw [h] <;> simp

/-- Witness for C8: the degenerate inputs evaluate to the documented
neutral results. -/
theorem claim_C8_witness :
    cosine_similarity [] [1] = 0 ∧
    cosine_similarity [0] [1] = 0 ∧
    average_valence [] = ⟨0.5, 0.5, 0.5⟩ :=
  ⟨claim_C8.1 [] [1] (Or.inl rfl),
   claim_C8.2.1 [0] [1] (Or.inl (by norm_num [dotQ])),
   claim_C8.2.2⟩

/-- C9: the cosine similarity of a non-zero vector with itself is
exactly 1. -/
theorem claim_C9 (a : List ℚ) (ha : dotQ a a ≠ 0) : cosine_similarity a a = 1 := by
  have hQ : (0 : ℚ) < dotQ a a := lt_of_le_of_ne (dotQ_self_nonneg a) (Ne.symm ha)
  have h0 : (0 : ℝ) < ((dotQ a a : ℚ) : ℝ) := by exact_mod_cast hQ
  have hne : a ≠ [] := by
    rintro rfl
    exact ha (by simp [dotQ])
  rw [cosine_similarity_eq a a (by simp [hne])]
  rw [if_neg (by simp [Real.sqrt_eq_zero', not_or, not_le, hQ, h0])]
  rw [Real.mul_self_sqrt h0.le]
  exact div_self (ne_of_gt h0)

/-- Witness for C9 at the one-dimensional unit vector. -/
theorem claim_C9_witness : cosine_similarity [1] [1] = 1 :=
  claim_C9 [1] (by norm_num [dotQ])

lemma dotQ_sq_le (a : List ℚ) : ∀ b : List ℚ, dotQ a b ^ 2 ≤ dotQ a a * dotQ b b := by
  induction a with
  | nil => intro b; simp [dotQ]
  | cons x a ih =>
    intro b
    cases b with
    | nil => simp [dotQ]
    | cons y b =>
      simp only [dotQ_cons]
      have hsa : 0 ≤ dotQ a a := dotQ_self_nonneg a
      have hsb : 0 ≤ dotQ b b := dotQ_self_nonneg b
      have hd := ih b
      rcases eq_or_lt_of_le hsb with hb0 | hb0
      · have hd0 : dotQ a b = 0 := by nlinarith [sq_nonneg (dotQ a b)]
        rw [hd0, ← hb0]
        nlinarith [sq_nonneg (x * y)]
      · nlinarith [sq_nonneg (x * dotQ b b - y * dotQ a b),
          mul_nonneg (sq_nonneg y) (sub_nonneg.mpr hd),
          mul_pos hb0 hb0]

/-- Demonstration target unit for the negative-final-score example: a
unit with cached embedding `[1]`. -/
def neg_demo_target : TUnit :=
  { id := "t", content := "target", valence := ⟨0.5, 0.5, 0.5⟩, parents := []
    children := [], linkage := "foundational", phase := none, agent_id := "ag"
    ai_generated := false, embedding := some [1] }

/-- Demonstration candidate unit whose cached embedding `[-1]` points
opposite to the target's. -/
def neg_demo_candidate : TUnit :=
  { id := "c", content := "candidate", valence := ⟨0.5, 0.5, 0.5⟩, parents := []
    children := [], linkage := "foundational", phase := none, agent_id := "ag"
    ai_generated := false, embedding := some [-1] }

lemma cosine_opposite : cosine_similarity [1] [-1] = -1 := by
  rw [cosine_similarity_eq [1] [-1] (by simp)]
  have h1 : dotQ [1] [1] = 1 := by norm_num [dotQ]
  have h2 : dotQ [(-1 : ℚ)] [-1] = 1 := by norm_num [dotQ]
  have h3 : dotQ [(1 : ℚ)] [-1] = -1 := by norm_num [dotQ]
  rw [h1, h2, h3]
  norm_num

/-- C10: for equal-length vectors of non-zero norm the cosine similarity
lies in `[-1, 1]` but is not clamped at 0: on `[1]` and `[-1]` it is
`-1`, and a memory suggestion built from such embeddings gets a strictly
negative final score even with `valence_weight = 1/4` in `[0,1]` and a
valence similarity of 1. -/
theorem claim_C10 :
    (∀ a b : List ℚ, a.length = b.length → dotQ a a ≠ 0 → dotQ b b ≠ 0 →
      -1 ≤ cosine_similarity a b ∧ cosine_similarity a b ≤ 1) ∧
    cosine_similarity [1] [-1] < 0 ∧
    (find_memory_suggestions (fun _ => none) neg_demo_target "ag"
        [neg_demo_candidate] 10 false (1/4)).map MemorySuggestion.final_score =
      [-(1/2)] ∧
    (-(1/2) : ℝ) < 0 := by
  refine ⟨?_, by rw [cosine_opposite]; norm_num, ?_, by norm_num⟩
  · intro a b hlen ha hb
    have haQ : (0 : ℚ) < dotQ a a := lt_of_le_of_ne (dotQ_self_nonneg a) (Ne.symm ha)
    have hbQ : (0 : ℚ) < dotQ b b := lt_of_le_of_ne (dotQ_self_nonneg b) (Ne.symm hb)
    have haR : (0 : ℝ) < ((dotQ a a : ℚ) : ℝ) := by exact_mod_cast haQ
    have hbR : (0 : ℝ) < ((dotQ b b : ℚ) : ℝ) := by exact_mod_cast hbQ
    have hane : a ≠ [] := by rintro rfl; exact ha (by simp [dotQ])
    have hbne : b ≠ [] := by rintro rfl; exact hb (by simp [dotQ])
    rw [cosine_similarity_eq a b (by simp [hane, hbne, hlen])]
    rw [if_neg (by simp [Real.sqrt_eq_zero', not_or, not_le, haQ, hbQ, haR, hbR])]
    have hsa : (0 : ℝ) < Real.sqrt ((dotQ a a : ℚ) : ℝ) := Real.sqrt_pos.mpr haR
    have hsb : (0 : ℝ) < Real.sqrt ((dotQ b b : ℚ) : ℝ) := Real.sqrt_pos.mpr hbR
    have habs : |((dotQ a b : ℚ) : ℝ)| ≤
        Real.sqrt ((dotQ a a : ℚ) : ℝ) * Real.sqrt ((dotQ b b : ℚ) : ℝ) := by
      rw [← Real.sqrt_mul haR.le]
      rw [← Real.sqrt_sq_eq_abs]
      apply Real.sqrt_le_sqrt
      have := dotQ_sq_le a b
      exact_mod_cast this
    rw [← abs_le]
    rw [abs_div, abs_of_pos (mul_pos hsa hsb)]
    exact div_le_one_of_le₀ habs (mul_pos hsa hsb).le
  · have hgo_t : get_or_create_embedding (fun _ => none) neg_demo_target = some [1] := rfl
    have hgo_c : get_or_create_embedding (fun _ => none) neg_demo_candidate = some [-1] := rfl
    have hvs : valence_similarity neg_demo_target.valence neg_demo_candidate.valence = 1 := by
      norm_num [valence_similarity, neg_demo_target, neg_demo_candidate, max_def]
    have hsc : score_candidate (fun _ => none) [1] neg_demo_target.valence (1/4)
        neg_demo_candidate =
        some { id := "c", content := "candidate", similarity := -1, valence_score := 1
               final_score := (-1) * (1 - 1/4) + 1 * (1/4), agent_id := "ag"
               valence := ⟨0.5, 0.5, 0.5⟩ } := by
      rw [score_candidate, hgo_c]
      simp only [cosine_opposite, hvs]
      norm_num [neg_demo_candidate]
    have hfilter : ([neg_demo_candidate].filter
        (fun u => u.id != neg_demo_target.id && (false || u.agent_id == "ag"))) =
        [neg_demo_candidate] := by
      simp [neg_demo_candidate, neg_demo_target]
    rw [find_memory_suggestions, scored_suggestions, hgo_t, hfilter]
    dsimp only
    rw [List.filterMap_cons_some hsc]
    rw [List.filterMap_nil]
    simp only [List.insertionSort, List.orderedInsert, List.take, List.map]
    norm_num

/-- Witness for C10: the cosine bounds instantiated on the unit vector. -/
theorem claim_C10_witness :
    -1 ≤ cosine_similarity [1] [1] ∧ cosine_similarity [1] [1] ≤ 1 :=
  claim_C10.1 [1] [1] rfl (by norm_num [dotQ]) (by norm_num [dotQ])

open Classical in
/-- The sublist of suggestions carrying one fixed final score, in order.
A sort is stable exactly when it leaves every such sublist unchanged. -/
noncomputable def score_filter (v : ℝ) (l : List MemorySuggestion) :
    List MemorySuggestion :=
  l.filter (fun s => decide (s.final_score = v))

lemma score_filter_nil (v : ℝ) : score_filter v [] = [] := rfl

lemma score_filter_cons (v : ℝ) (x : MemorySuggestion) (l : List MemorySuggestion) :
    score_filter v (x :: l) =
      if x.final_score = v then x :: score_filter v l else score_filter v l := by
  by_cases hx : x.final_score = v <;> simp [score_filter, hx]

lemma score_filter_orderedInsert (v : ℝ) (x : MemorySuggestion) :
    ∀ l : List MemorySuggestion,
      score_filter v (List.orderedInsert score_ge x l) =
      if x.final_score = v then x :: score_filter v l else score_filter v l := by
  intro l
  induction l with
  | nil => rw [List.orderedInsert, score_filter_cons]
  | cons b l ih =>
    rw [List.orderedInsert]
    by_cases hr : score_ge x b
    · rw [if_pos hr, score_filter_cons]
    · rw [if_neg hr, score_filter_cons, ih, score_filter_cons]
      by_cases hx : x.final_score = v
      · have hb : ¬b.final_score = v := by
          intro hb
          exact hr (le_of_eq (hb.trans hx.symm))
        rw [if_pos hx, if_neg hb, if_neg hb, if_pos hx]
      · rw [if_neg hx, if_neg hx]

lemma score_filter_insertionSort (v : ℝ) :
    ∀ l : List MemorySuggestion,
      score_filter v (l.insertionSort score_ge) = score_filter v l := by
  intro l
  induction l with
  | nil => rfl
  | cons x l ih =>
    rw [List.insertionSort, score_filter_orderedInsert, ih, score_filter_cons]

lemma score_candidate_eq_some {embed : String → Option (List ℚ)}
    {te : List ℚ} {tv : Valence} {w : ℝ} {c : TUnit} {s : MemorySuggestion}
    (h : score_candidate embed te tv w c = some s) :
    s.final_score = s.similarity * (1 - w) + s.valence_score * w ∧ s.id = c.id := by
  unfold score_candidate at h
  cases hg : get_or_create_embedding embed c with
  | none => rw [hg] at h; exact absurd h (by simp)
  | some ce =>
    rw [hg] at h
    simp only [Option.some.injEq] at h
    subst h
    exact ⟨rfl, rfl⟩

lemma mem_scored_suggestions {embed : String → Option (List ℚ)} {target : TUnit}
    {agent_id : String} {pool : List TUnit} {icag : Bool} {w : ℝ}
    {s : MemorySuggestion}
    (h : s ∈ scored_suggestions embed target agent_id pool icag w) :
    s.final_score = s.similarity * (1 - w) + s.valence_score * w ∧
    s.id ≠ target.id := by
  unfold scored_suggestions at h
  cases hg : get_or_create_embedding embed target with
  | none => rw [hg] at h; simp at h
  | some te =>
    rw [hg] at h
    obtain ⟨c, hc, hsc⟩ := List.mem_filterMap.mp h
    have hcs := score_candidate_eq_some hsc
    refine ⟨hcs.1, ?_⟩
    have hcf := List.mem_filter.mp hc
    have := hcf.2
    simp only [Bool.and_eq_true, bne_iff_ne] at this
    rw [hcs.2]
    exact this.1

/-- C4: every returned memory suggestion scores with the weighted formula
`semanticSim * (1 - w) + valenceSim * w`; the target's own id never
appears; the output is the `limit`-truncation of the stable descending
sort of the scored pool (sorted pairwise, a permutation of the scored
list that leaves every equal-score sublist in its original enumeration
order), and its length is at most `limit`. -/
theorem claim_C4 (embed : String → Option (List ℚ)) (target : TUnit)
    (agent_id : String) (pool : List TUnit) (lim : Nat)
    (include_cross_agent : Bool) (valence_weight : ℝ) :
    (∀ s ∈ find_memory_suggestions embed target agent_id pool lim
        include_cross_agent valence_weight,
      s.final_score = s.similarity * (1 - valence_weight) +
        s.valence_score * valence_weight) ∧
    (∀ s ∈ find_memory_suggestions embed target agent_id pool lim
        include_cross_agent valence_weight, s.id ≠ target.id) ∧
    (find_memory_suggestions embed target agent_id pool lim
        include_cross_agent valence_weight).Pairwise score_ge ∧
    find_memory_suggestions embed target agent_id pool lim
        include_cross_agent valence_weight =
      ((scored_suggestions embed target agent_id pool include_cross_agent
          valence_weight).insertionSort score_ge).take lim ∧
    ((scored_suggestions embed target agent_id pool include_cross_agent
        valence_weight).insertionSort score_ge).Perm
      (scored_suggestions embed target agent_id pool include_cross_agent
        valence_weight) ∧
    (∀ v : ℝ, score_filter v ((scored_suggestions embed target agent_id pool
        include_cross_agent valence_weight).insertionSort score_ge) =
      score_filter v (scored_suggestions embed target agent_id pool
        include_cross_agent valence_weight)) ∧
    (find_memory_suggestions embed target agent_id pool lim
        include_cross_agent valence_weight).length ≤ lim := by
  have hmem : ∀ s ∈ find_memory_suggestions embed target agent_id pool lim
      include_cross_agent valence_weight,
      s ∈ scored_suggestions embed target agent_id pool include_cross_agent
        valence_weight := by
    intro s hs
    rw [find_memory_suggestions] at hs
    have hs2 := (List.take_sublist _ _).subset hs
    exact (List.mem_insertionSort score_ge).mp hs2
  refine ⟨fun s hs => (mem_scored_suggestions (hmem s hs)).1,
    fun s hs => (mem_scored_suggestions (hmem s hs)).2,
    ?_, rfl, List.perm_insertionSort score_ge _,
    fun v => score_filter_insertionSort v _, ?_⟩
  · rw [find_memory_suggestions]
    exact List.Pairwise.sublist (List.take_sublist _ _)
      (List.sorted_insertionSort score_ge _)
  · rw [find_memory_suggestions, List.length_take]
    exact min_le_left _ _

lemma find_one_cons_self {u : TUnit} {us : List TUnit} {i : String} (h : u.id = i) :
    find_one (u :: us) i = some u := by
  simp only [find_one]
  exact List.find?_cons_of_pos _ (by simp [h])

lemma find_one_cons_ne {u : TUnit} {us : List TUnit} {i : String} (h : u.id ≠ i) :
    find_one (u :: us) i = find_one us i := by
  simp only [find_one]
  exact List.find?_cons_of_neg _ (by simp [h])

lemma find_one_append_left {us : List TUnit} {i : String} {p : TUnit}
    (h : find_one us i = some p) (vs : List TUnit) :
    find_one (us ++ vs) i = some p := by
  simp only [find_one] at h ⊢
  rw [List.find?_append, h]
  rfl

lemma find_one_update_first_ne {f : TUnit → TUnit} (hf : ∀ u, (f u).id = u.id)
    {i j : String} (hij : j ≠ i) :
    ∀ us : List TUnit,
      find_one (update_first (fun u => u.id == j) f us) i = find_one us i
  | [] => rfl
  | u :: us => by
    rw [update_first]
    by_cases hu : u.id = j
    · rw [if_pos (by simp [hu])]
      rw [find_one_cons_ne (by rw [hf u, hu]; exact hij)]
      rw [find_one_cons_ne (by rw [hu]; exact hij)]
    · rw [if_neg (by simp [hu])]
      by_cases hui : u.id = i
      · rw [find_one_cons_self hui, find_one_cons_self hui]
      · rw [find_one_cons_ne hui, find_one_cons_ne hui,
          find_one_update_first_ne hf hij us]

lemma find_one_update_first_eq {f : TUnit → TUnit} (hf : ∀ u, (f u).id = u.id)
    {i : String} :
    ∀ us : List TUnit,
      find_one (update_first (fun u => u.id == i) f us) i = (find_one us i).map f
  | [] => rfl
  | u :: us => by
    by_cases hu : u.id = i
    · rw [update_first, if_pos (by simp [hu])]
      rw [find_one_cons_self (by rw [hf u]; exact hu), find_one_cons_self hu]
      rfl
    · rw [update_first, if_neg (by simp [hu])]
      rw [find_one_cons_ne hu, find_one_cons_ne hu,
        find_one_update_first_eq hf us]

lemma find_one_push_children_ne {i j : String} (hij : j ≠ i) (cids : List String)
    (us : List TUnit) :
    find_one (push_children j cids us) i = find_one us i := by
  unfold push_children
  exact @find_one_update_first_ne (fun u => { u with children := u.children ++ cids })
    (fun _ => rfl) i j hij us

lemma find_one_push_children_eq (i : String) (cids : List String) (us : List TUnit) :
    find_one (push_children i cids us) i =
      (find_one us i).map (fun u => { u with children := u.children ++ cids }) := by
  unfold push_children
  exact @find_one_update_first_eq (fun u => { u with children := u.children ++ cids })
    (fun _ => rfl) i us

lemma fold_push_preserves {cid i : String} :
    ∀ (ids : List String) (us : List TUnit) (q : TUnit),
      find_one us i = some q → cid ∈ q.children →
      ∃ q2, find_one (ids.foldl (fun acc j => push_children j [cid] acc) us) i =
          some q2 ∧ cid ∈ q2.children
  | [], _, q, hq, hc => ⟨q, hq, hc⟩
  | j :: ids, us, q, hq, hc => by
    rw [List.foldl_cons]
    by_cases hji : j = i
    · subst hji
      exact fold_push_preserves ids _ _
        (by rw [find_one_push_children_eq, hq]; rfl) (by simp [hc])
    · exact fold_push_preserves ids _ q
        (by rw [find_one_push_children_ne hji]; exact hq) hc

lemma fold_push_mem {cid i : String} :
    ∀ (ids : List String) (us : List TUnit) (q : TUnit),
      i ∈ ids → find_one us i = some q →
      ∃ q2, find_one (ids.foldl (fun acc j => push_children j [cid] acc) us) i =
          some q2 ∧ cid ∈ q2.children
  | [], _, _, him, _ => absurd him (List.not_mem_nil _)
  | j :: ids, us, q, him, hq => by
    rw [List.foldl_cons]
    by_cases hji : j = i
    · subst hji
      exact fold_push_preserves ids _ _
        (by rw [find_one_push_children_eq, hq]; rfl) (by simp)
    · have him2 : i ∈ ids := by
        rcases List.mem_cons.mp him with h | h
        · exact absurd h.symm hji
        · exact h
      exact fold_push_mem ids _ q him2
        (by rw [find_one_push_children_ne hji]; exact hq)

/-- C7: a synthesis request in which fewer than 2 ids resolve is rejected
with the insufficient-input error and the store is returned unchanged:
no unit inserted, no children touched, no event appended. -/
theorem claim_C7 (oracle : Option (String × Valence))
    (embed : String → Option (List ℚ)) (new_id ev_id : String)
    (request : SynthesisRequest) (s : Store)
    (h : (request.t_unit_ids.filterMap (find_one s.t_units)).length < 2) :
    synthesize_t_units oracle embed new_id ev_id request s =
      (Except.error ApiError.insufficientInput, s) := by
  unfold synthesize_t_units
  rcases hl : request.t_unit_ids.filterMap (find_one s.t_units) with _ | ⟨a, _ | ⟨b, rest⟩⟩
  · rfl
  · rfl
  · rw [hl] at h
    simp only [List.length_cons] at h
    omega

/-- Demonstration valence and units used by the concrete witnesses. -/
def demo_valence : Valence := ⟨0.5, 0.5, 0.5⟩

/-- First demonstration unit of the concrete store. -/
def demo_unit_a : TUnit :=
  { id := "a", content := "x", valence := demo_valence, parents := []
    children := [], linkage := "foundational", phase := none, agent_id := "alpha"
    ai_generated := false, embedding := none }

/-- Second demonstration unit of the concrete store. -/
def demo_unit_b : TUnit :=
  { id := "b", content := "y", valence := ⟨0.8, 0.3, 0.6⟩, parents := []
    children := [], linkage := "generative", phase := none, agent_id := "alpha"
    ai_generated := false, embedding := none }

/-- Concrete two-unit store used by the witnesses. -/
def demo_store : Store := ⟨[demo_unit_a, demo_unit_b], []⟩

/-- Witness for C7: requesting two ids against the empty store resolves
nothing and is rejected with the store unchanged. -/
theorem claim_C7_witness :
    ((["a", "b"].filterMap (find_one (Store.mk [] []).t_units)).length < 2) ∧
    synthesize_t_units none (fun _ => none) "n" "e"
        ⟨["a", "b"], false, []⟩ ⟨[], []⟩ =
      (Except.error ApiError.insufficientInput, ⟨[], []⟩) :=
  ⟨by simp [find_one],
   claim_C7 none (fun _ => none) "n" "e" ⟨["a", "b"], false, []⟩ ⟨[], []⟩
     (by simp [find_one])⟩

lemma forall₂_enumFrom_map {α β : Type _} (R : β → α → Prop) (f : Nat × α → β)
    (hf : ∀ k a, R (f (k, a)) a) :
    ∀ (l : List α) (n : Nat), List.Forall₂ R ((List.enumFrom n l).map f) l
  | [], _ => List.Forall₂.nil
  | a :: l, n => by
    rw [List.enumFrom_cons, List.map_cons]
    exact List.Forall₂.cons (hf n a) (forall₂_enumFrom_map R f hf l (n + 1))

lemma forall₂_enum_map {α β : Type _} (R : β → α → Prop) (f : Nat × α → β)
    (hf : ∀ k a, R (f (k, a)) a) (l : List α) :
    List.Forall₂ R (l.enum.map f) l :=
  forall₂_enumFrom_map R f hf l 0

lemma transform_phase_unit_spec (oracle : String → Option (String × Valence))
    (embed : String → Option (List ℚ)) (use_ai : Bool) (anomaly : String)
    (original : TUnit) (rid nid ph : String) :
    (transform_phase_unit oracle embed use_ai anomaly original rid nid ph).phase = some ph ∧
    (transform_phase_unit oracle embed use_ai anomaly original rid nid ph).parents = [rid] ∧
    (use_ai = false →
      (transform_phase_unit oracle embed use_ai anomaly original rid nid ph).content =
        generate_transformation_content original.content ph anomaly ∧
      (transform_phase_unit oracle embed use_ai anomaly original rid nid ph).valence =
        apply_transformation_phase original.valence ph) ∧
    (use_ai = true →
      (transform_phase_unit oracle embed use_ai anomaly original rid nid ph).content =
        (ai_transform_content (oracle ph) original.content original.valence ph anomaly).1 ∧
      (transform_phase_unit oracle embed use_ai anomaly original rid nid ph).valence =
        (ai_transform_content (oracle ph) original.content original.valence ph anomaly).2) ∧
    (transform_phase_unit oracle embed use_ai anomaly original rid nid ph).ai_generated = use_ai ∧
    (transform_phase_unit oracle embed use_ai anomaly original rid nid ph).id = nid ∧
    (transform_phase_unit oracle embed use_ai anomaly original rid nid ph).linkage =
      "transformational" ∧
    (transform_phase_unit oracle embed use_ai anomaly original rid nid ph).agent_id =
      original.agent_id := by
  cases use_ai <;> simp [transform_phase_unit]

/-- C2: a transformation of an existing unit returns exactly the 5 phase
units, one per phase in the fixed order Shattering, Remembering,
Re-feeling, Re-centering, Becoming; each has `parents = [originalId]`,
and each phase's content and valence are computed from the ORIGINAL
unit's content and valence (deterministic rule or per-phase oracle with
fallback), never from the previous phase's output. -/
theorem claim_C2 (oracle : String → Option (String × Valence))
    (embed : String → Option (List ℚ)) (fid eid : Nat → String)
    (request : TransformationRequest) (s : Store) (original : TUnit)
    (h : find_one s.t_units request.t_unit_id = some original) :
    (transform_t_unit oracle embed fid eid request s).1 =
      Except.ok (transform_new_units oracle embed fid request original) ∧
    (transform_new_units oracle embed fid request original).length = 5 ∧
    phases = ["Shattering", "Remembering", "Re-feeling", "Re-centering", "Becoming"] ∧
    List.Forall₂ (fun (u : TUnit) (ph : String) =>
        u.phase = some ph ∧
        u.parents = [request.t_unit_id] ∧
        (request.use_ai = false →
          u.content = generate_transformation_content original.content ph request.anomaly ∧
          u.valence = apply_transformation_phase original.valence ph) ∧
        (request.use_ai = true →
          u.content = (ai_transform_content (oracle ph) original.content
            original.valence ph request.anomaly).1 ∧
          u.valence = (ai_transform_content (oracle ph) original.content
            original.valence ph request.anomaly).2))
      (transform_new_units oracle embed fid request original) phases := by
  have hfa := forall₂_enum_map
    (fun (u : TUnit) (ph : String) =>
        u.phase = some ph ∧
        u.parents = [request.t_unit_id] ∧
        (request.use_ai = false →
          u.content = generate_transformation_content original.content ph request.anomaly ∧
          u.valence = apply_transformation_phase original.valence ph) ∧
        (request.use_ai = true →
          u.content = (ai_transform_content (oracle ph) original.content
            original.valence ph request.anomaly).1 ∧
          u.valence = (ai_transform_content (oracle ph) original.content
            original.valence ph request.anomaly).2))
    (fun p => transform_phase_unit oracle embed request.use_ai request.anomaly original
      request.t_unit_id (fid p.1) p.2)
    (fun k ph => by
      obtain ⟨h1, h2, h3, h4, _⟩ :=
        transform_phase_unit_spec oracle embed request.use_ai request.anomaly original
          request.t_unit_id (fid k) ph
      exact ⟨h1, h2, h3, h4⟩)
    phases
  refine ⟨?_, ?_, rfl, hfa⟩
  · unfold transform_t_unit
    rw [h]
  · exact (List.Forall₂.length_eq hfa).trans rfl

/-- Witness for C2 on the concrete demonstration store. -/
theorem claim_C2_witness :
    find_one demo_store.t_units "a" = some demo_unit_a ∧
    (transform_t_unit (fun _ => none) (fun _ => none) (fun k => toString k)
        (fun k => toString k) ⟨"a", "anom", false, []⟩ demo_store).1 =
      Except.ok (transform_new_units (fun _ => none) (fun _ => none)
        (fun k => toString k) ⟨"a", "anom", false, []⟩ demo_unit_a) := by
  have hfind : find_one demo_store.t_units "a" = some demo_unit_a := by
    show find_one [demo_unit_a, demo_unit_b] "a" = some demo_unit_a
    exact find_one_cons_self rfl
  exact ⟨hfind, (claim_C2 (fun _ => none) (fun _ => none) (fun k => toString k)
    (fun k => toString k) ⟨"a", "anom", false, []⟩ demo_store demo_unit_a hfind).1⟩

lemma joinSep_mem_data (sep c : String) :
    ∀ contents : List String, c ∈ contents →
      ∃ s1 t1 : List Char, s1 ++ c.data ++ t1 = (joinSep sep contents).data
  | [], h => absurd h (List.not_mem_nil c)
  | [d], h => by
    have hc : c = d := by simpa using h
    subst hc
    exact ⟨[], [], by simp [joinSep]⟩
  | d :: e :: tl, h => by
    show ∃ s1 t1, s1 ++ c.data ++ t1 = (d ++ sep ++ joinSep sep (e :: tl)).data
    rcases List.mem_cons.mp h with rfl | h2
    · exact ⟨[], sep.data ++ (joinSep sep (e :: tl)).data,
        by simp [String.data_append]⟩
    · obtain ⟨s1, t1, hst⟩ := joinSep_mem_data sep c (e :: tl) h2
      refine ⟨d.data ++ sep.data ++ s1, t1, ?_⟩
      simp only [String.data_append, ← hst]
      simp [List.append_assoc]

lemma synthesize_content_mem_data (c : String) (contents : List String)
    (hc : c ∈ contents) :
    ∃ s1 t1 : List Char, s1 ++ c.data ++ t1 = (synthesize_content contents).data := by
  obtain ⟨s1, t1, hst⟩ := joinSep_mem_data " ⋈ " c contents hc
  refine ⟨"SYNTHESIS: ".data ++ s1, t1, ?_⟩
  rw [synthesize_content, String.data_append, ← hst]
  simp [List.append_assoc]

lemma average_valence_cons (v : Valence) (vs : List Valence) :
    average_valence (v :: vs) =
      { curiosity := ((v :: vs).map Valence.curiosity).sum / (((v :: vs).length : ℕ) : ℚ)
        certainty := ((v :: vs).map Valence.certainty).sum / (((v :: vs).length : ℕ) : ℚ)
        dissonance := ((v :: vs).map Valence.dissonance).sum / (((v :: vs).length : ℕ) : ℚ) } := by
  rw [average_valence, if_neg (by simp)]

/-- C5: deterministic synthesis (at least two ids resolving, `use_ai`
false) produces a unit whose content contains every input content
literally (the joined concatenation), whose valence is the per-dimension
arithmetic mean of the inputs, whose parents are exactly the requested
ids in order, with linkage `generative`, the first resolved unit's agent,
and `ai_generated = false`. -/
theorem claim_C5 (oracle : Option (String × Valence))
    (embed : String → Option (List ℚ)) (new_id ev_id : String)
    (request : SynthesisRequest) (s : Store)
    (first second : TUnit) (rest : List TUnit)
    (hres : request.t_unit_ids.filterMap (find_one s.t_units) =
      first :: second :: rest)
    (hai : request.use_ai = false) :
    ((synthesize_t_units oracle embed new_id ev_id request s).1.map TUnit.content =
      Except.ok (synthesize_content ((first :: second :: rest).map TUnit.content))) ∧
    (∀ t ∈ first :: second :: rest, ∃ s1 t1 : List Char,
      s1 ++ t.content.data ++ t1 =
        (synthesize_content ((first :: second :: rest).map TUnit.content)).data) ∧
    ((synthesize_t_units oracle embed new_id ev_id request s).1.map TUnit.valence =
      Except.ok
        { curiosity := ((first :: second :: rest).map (fun t => t.valence.curiosity)).sum /
            (((first :: second :: rest).length : ℕ) : ℚ)
          certainty := ((first :: second :: rest).map (fun t => t.valence.certainty)).sum /
            (((first :: second :: rest).length : ℕ) : ℚ)
          dissonance := ((first :: second :: rest).map (fun t => t.valence.dissonance)).sum /
            (((first :: second :: rest).length : ℕ) : ℚ) }) ∧
    ((synthesize_t_units oracle embed new_id ev_id request s).1.map TUnit.parents =
      Except.ok request.t_unit_ids) ∧
    ((synthesize_t_units oracle embed new_id ev_id request s).1.map TUnit.linkage =
      Except.ok "generative") ∧
    ((synthesize_t_units oracle embed new_id ev_id request s).1.map TUnit.agent_id =
      Except.ok first.agent_id) ∧
    ((synthesize_t_units oracle embed new_id ev_id request s).1.map TUnit.ai_generated =
      Except.ok false) := by
  have key : (synthesize_t_units oracle embed new_id ev_id request s).1 =
      Except.ok
        { id := new_id
          content := synthesize_content ((first :: second :: rest).map TUnit.content)
          valence := average_valence ((first :: second :: rest).map TUnit.valence)
          parents := request.t_unit_ids, children := []
          linkage := "generative", phase := none, agent_id := first.agent_id
          ai_generated := false
          embedding := embed (synthesize_content
            ((first :: second :: rest).map TUnit.content)) } := by
    unfold synthesize_t_units
    rw [hres, hai]
    rfl
  refine ⟨by rw [key]; rfl, ?_, ?_, by rw [key]; rfl, by rw [key]; rfl,
    by rw [key]; rfl, by rw [key]; rfl⟩
  · intro t ht
    exact synthesize_content_mem_data t.content _ (List.mem_map_of_mem TUnit.content ht)
  · rw [key]
    show Except.ok (average_valence ((first :: second :: rest).map TUnit.valence)) = _
    rw [List.map_cons, List.map_cons, average_valence_cons]
    simp only [List.map_cons, List.map_map, List.length_cons, List.length_map,
      Valence.mk.injEq, Except.ok.injEq, List.sum_cons, Nat.cast_add, Nat.cast_one]
    exact ⟨rfl, rfl, rfl⟩

/-- Witness for C5 on the concrete demonstration store. -/
theorem claim_C5_witness :
    ((SynthesisRequest.mk ["a", "b"] false []).t_unit_ids.filterMap
      (find_one demo_store.t_units) = demo_unit_a :: demo_unit_b :: []) ∧
    ((synthesize_t_units none (fun _ => none) "n" "e"
        ⟨["a", "b"], false, []⟩ demo_store).1.map TUnit.content =
      Except.ok (synthesize_content
        ((demo_unit_a :: demo_unit_b :: []).map TUnit.content))) := by
  have hres : (SynthesisRequest.mk ["a", "b"] false []).t_unit_ids.filterMap
      (find_one demo_store.t_units) = demo_unit_a :: demo_unit_b :: [] := by rfl
  exact ⟨hres, (claim_C5 none (fun _ => none) "n" "e" ⟨["a", "b"], false, []⟩
    demo_store demo_unit_a demo_unit_b [] hres rfl).1⟩

/-- C1 (amended): when `use_ai` is true and the generative call fails
(raises or returns text that is not the expected JSON, oracle `none`),
synthesis and every transformation phase carry exactly the deterministic
fallback content and valence — but their `ai_generated` flag is TRUE,
not false: both endpoints set the flag from the request's `use_ai`
value, not from which path actually produced the output. -/
theorem claim_C1_amended (oracle : Option (String × Valence))
    (toracle : String → Option (String × Valence))
    (embed : String → Option (List ℚ)) (new_id ev_id : String)
    (fid eid : Nat → String)
    (request : SynthesisRequest) (trequest : TransformationRequest) (s : Store)
    (first second : TUnit) (rest : List TUnit) (original : TUnit)
    (hres : request.t_unit_ids.filterMap (find_one s.t_units) =
      first :: second :: rest)
    (hai : request.use_ai = true)
    (hfail : oracle = none)
    (hfind : find_one s.t_units trequest.t_unit_id = some original)
    (htai : trequest.use_ai = true)
    (htfail : ∀ ph, toracle ph = none) :
    ((synthesize_t_units oracle embed new_id ev_id request s).1.map TUnit.content =
      Except.ok (synthesize_content ((first :: second :: rest).map TUnit.content))) ∧
    ((synthesize_t_units oracle embed new_id ev_id request s).1.map TUnit.valence =
      Except.ok (average_valence ((first :: second :: rest).map TUnit.valence))) ∧
    ((synthesize_t_units oracle embed new_id ev_id request s).1.map TUnit.ai_generated =
      Except.ok true) ∧
    ((transform_t_unit toracle embed fid eid trequest s).1 =
      Except.ok (transform_new_units toracle embed fid trequest original)) ∧
    List.Forall₂ (fun (u : TUnit) (ph : String) =>
        u.content = generate_transformation_content original.content ph trequest.anomaly ∧
        u.valence = apply_transformation_phase original.valence ph ∧
        u.ai_generated = true)
      (transform_new_units toracle embed fid trequest original) phases := by
  have key : (synthesize_t_units oracle embed new_id ev_id request s).1 =
      Except.ok
        { id := new_id
          content := synthesize_content ((first :: second :: rest).map TUnit.content)
          valence := average_valence ((first :: second :: rest).map TUnit.valence)
          parents := request.t_unit_ids, children := []
          linkage := "generative", phase := none, agent_id := first.agent_id
          ai_generated := true
          embedding := embed (synthesize_content
            ((first :: second :: rest).map TUnit.content)) } := by
    unfold synthesize_t_units
    rw [hres, hai, hfail]
    rfl
  refine ⟨by rw [key]; rfl, by rw [key]; rfl, by rw [key]; rfl,
    by unfold transform_t_unit; rw [hfind], ?_⟩
  exact forall₂_enum_map _
    (fun p => transform_phase_unit toracle embed trequest.use_ai trequest.anomaly
      original trequest.t_unit_id (fid p.1) p.2)
    (fun k ph => by
      obtain ⟨_, _, _, h4, h5, _⟩ :=
        transform_phase_unit_spec toracle embed trequest.use_ai trequest.anomaly
          original trequest.t_unit_id (fid k) ph
      refine ⟨?_, ?_, h5.trans htai⟩
      · rw [(h4 htai).1, htfail ph]
        rfl
      · rw [(h4 htai).2, htfail ph]
        rfl)
    phases

/-- Counterexample to C1 as stated: on the demonstration store a
synthesis request with `use_ai = true` whose generative call fails
produces exactly the fallback content and valence, yet `ai_generated`
is true, never false. -/
theorem claim_C1_counterexample :
    ((synthesize_t_units none (fun _ => none) "n" "e"
        ⟨["a", "b"], true, []⟩ demo_store).1.map TUnit.content =
      Except.ok (synthesize_content ["x", "y"])) ∧
    ((synthesize_t_units none (fun _ => none) "n" "e"
        ⟨["a", "b"], true, []⟩ demo_store).1.map TUnit.valence =
      Except.ok (average_valence [demo_unit_a.valence, demo_unit_b.valence])) ∧
    ((synthesize_t_units none (fun _ => none) "n" "e"
        ⟨["a", "b"], true, []⟩ demo_store).1.map TUnit.ai_generated =
      Except.ok true) ∧
    ((synthesize_t_units none (fun _ => none) "n" "e"
        ⟨["a", "b"], true, []⟩ demo_store).1.map TUnit.ai_generated ≠
      Except.ok false) := by
  have h3 : (synthesize_t_units none (fun _ => none) "n" "e"
      ⟨["a", "b"], true, []⟩ demo_store).1.map TUnit.ai_generated =
      Except.ok true := rfl
  refine ⟨rfl, rfl, h3, ?_⟩
  rw [h3]
  simp

/-- Witness for the amended C1 on the demonstration store. -/
theorem claim_C1_witness :
    ((synthesize_t_units none (fun _ => none) "n" "e"
        ⟨["a", "b"], true, []⟩ demo_store).1.map TUnit.ai_generated =
      Except.ok true) ∧
    List.Forall₂ (fun (u : TUnit) (ph : String) =>
        u.content = generate_transformation_content demo_unit_a.content ph "anom" ∧
        u.valence = apply_transformation_phase demo_unit_a.valence ph ∧
        u.ai_generated = true)
      (transform_new_units (fun _ => none) (fun _ => none) (fun k => toString k)
        ⟨"a", "anom", true, []⟩ demo_unit_a) phases := by
  have h := claim_C1_amended none (fun _ => none) (fun _ => none) "n" "e"
    (fun k => toString k) (fun k => toString k)
    ⟨["a", "b"], true, []⟩ ⟨"a", "anom", true, []⟩ demo_store
    demo_unit_a demo_unit_b [] demo_unit_a
    rfl rfl rfl rfl rfl (fun _ => rfl)
  exact ⟨h.2.2.1, h.2.2.2.2⟩

lemma synthesize_store_shape (oracle : Option (String × Valence))
    (embed : String → Option (List ℚ)) (new_id ev_id : String)
    (request : SynthesisRequest) (s : Store)
    (first second : TUnit) (rest : List TUnit)
    (hres : request.t_unit_ids.filterMap (find_one s.t_units) =
      first :: second :: rest) :
    ∃ nu : TUnit, (synthesize_t_units oracle embed new_id ev_id request s).2.t_units =
      request.t_unit_ids.foldl (fun acc j => push_children j [new_id] acc)
        s.t_units ++ [nu] := by
  unfold synthesize_t_units
  rw [hres]
  exact ⟨_, rfl⟩

lemma exchange_store_shape (xid xev : String) (exchange : MultiAgentExchange)
    (s : Store) (xp : TUnit)
    (hx : find_one s.t_units exchange.t_unit_id = some xp) :
    ∃ nu : TUnit, (multi_agent_exchange xid xev exchange s).2.t_units =
      s.t_units ++ [nu] := by
  unfold multi_agent_exchange
  rw [hx]
  exact ⟨_, rfl⟩

/-- C6 (amended): synthesis appends the new unit's id to the children of
every resolved requested parent, and transformation appends all five new
ids to the original's children in one batch — but multi-agent exchange,
although it creates a unit whose parents list is `[originalId]`, leaves
the original unit entirely unchanged: its children list does not gain
the new id. -/
theorem claim_C6_amended (oracle : Option (String × Valence))
    (toracle : String → Option (String × Valence))
    (embed : String → Option (List ℚ)) (new_id ev_id xid xev : String)
    (fid eid : Nat → String)
    (request : SynthesisRequest) (trequest : TransformationRequest)
    (exchange : MultiAgentExchange) (s : Store)
    (first second : TUnit) (rest : List TUnit) (original : TUnit)
    (i : String) (p : TUnit) (xp : TUnit)
    (hres : request.t_unit_ids.filterMap (find_one s.t_units) =
      first :: second :: rest)
    (hi : i ∈ request.t_unit_ids)
    (hp : find_one s.t_units i = some p)
    (hfind : find_one s.t_units trequest.t_unit_id = some original)
    (hx : find_one s.t_units exchange.t_unit_id = some xp) :
    (∃ q, find_one ((synthesize_t_units oracle embed new_id ev_id request s).2).t_units
        i = some q ∧ new_id ∈ q.children) ∧
    (∃ q, find_one ((transform_t_unit toracle embed fid eid trequest s).2).t_units
        trequest.t_unit_id = some q ∧
      q.children = original.children ++
        (transform_new_units toracle embed fid trequest original).map TUnit.id) ∧
    find_one ((multi_agent_exchange xid xev exchange s).2).t_units
      exchange.t_unit_id = some xp := by
  refine ⟨?_, ?_, ?_⟩
  · obtain ⟨q2, hfq, hcm⟩ := @fold_push_mem new_id i request.t_unit_ids s.t_units p hi hp
    obtain ⟨nu, hshape⟩ := synthesize_store_shape oracle embed new_id ev_id request s
      first second rest hres
    refine ⟨q2, ?_, hcm⟩
    rw [hshape]
    exact find_one_append_left hfq [nu]
  · have hsh : (transform_t_unit toracle embed fid eid trequest s).2.t_units =
        push_children trequest.t_unit_id
          ((transform_new_units toracle embed fid trequest original).map TUnit.id)
          (s.t_units ++ transform_new_units toracle embed fid trequest original) := by
      unfold transform_t_unit
      rw [hfind]
    refine ⟨{ original with children := original.children ++
      (transform_new_units toracle embed fid trequest original).map TUnit.id }, ?_, rfl⟩
    rw [hsh, find_one_push_children_eq,
      find_one_append_left hfind (transform_new_units toracle embed fid trequest original)]
    rfl
  · obtain ⟨nu, hshape⟩ := exchange_store_shape xid xev exchange s xp hx
    rw [hshape]
    exact find_one_append_left hx [nu]

/-- Counterexample to C6 as stated: on the demonstration store the
multi-agent exchange creates unit `n` with `parents = ["a"]`, yet unit
`a`'s children list stays empty — the new id is never appended. -/
theorem claim_C6_counterexample :
    ((multi_agent_exchange "n" "e" ⟨"alpha", "beta", "a", "anomaly_sharing"⟩
        demo_store).1 = Except.ok "n") ∧
    ((find_one ((multi_agent_exchange "n" "e" ⟨"alpha", "beta", "a", "anomaly_sharing"⟩
        demo_store).2).t_units "n").map TUnit.parents = some ["a"]) ∧
    ((find_one ((multi_agent_exchange "n" "e" ⟨"alpha", "beta", "a", "anomaly_sharing"⟩
        demo_store).2).t_units "a").map TUnit.children = some []) ∧
    ¬ ∃ q, find_one ((multi_agent_exchange "n" "e"
        ⟨"alpha", "beta", "a", "anomaly_sharing"⟩ demo_store).2).t_units "a" =
          some q ∧ "n" ∈ q.children := by
  refine ⟨rfl, rfl, rfl, ?_⟩
  rintro ⟨q, hq, hmem⟩
  have hfa : find_one ((multi_agent_exchange "n" "e"
      ⟨"alpha", "beta", "a", "anomaly_sharing"⟩ demo_store).2).t_units "a" =
      some demo_unit_a := rfl
  rw [hfa] at hq
  obtain rfl := Option.some.inj hq
  simp [demo_unit_a] at hmem

/-- Witness for the amended C6 on the demonstration store. -/
theorem claim_C6_witness :
    (∃ q, find_one ((synthesize_t_units none (fun _ => none) "n" "e"
        ⟨["a", "b"], false, []⟩ demo_store).2).t_units "a" = some q ∧
      "n" ∈ q.children) ∧
    find_one ((multi_agent_exchange "n2" "e2"
        ⟨"alpha", "beta", "a", "anomaly_sharing"⟩ demo_store).2).t_units "a" =
      some demo_unit_a := by
  have h := claim_C6_amended none (fun _ => none) (fun _ => none) "n" "e" "n2" "e2"
    (fun k => toString k) (fun k => toString k)
    ⟨["a", "b"], false, []⟩ ⟨"a", "anom", false, []⟩
    ⟨"alpha", "beta", "a", "anomaly_sharing"⟩ demo_store
    demo_unit_a demo_unit_b [] demo_unit_a "a" demo_unit_a demo_unit_a
    rfl (by simp) rfl rfl rfl
  exact ⟨h.1, h.2.2⟩

/-- Witness for C4: the memory-suggestion contract instantiated on a
concrete query against the empty pool. -/
theorem claim_C4_witness :
    find_memory_suggestions (fun _ => none) neg_demo_target "ag" [] 5 false (1/4) =
      ((scored_suggestions (fun _ => none) neg_demo_target "ag" [] false
        (1/4)).insertionSort score_ge).take 5 ∧
    (find_memory_suggestions (fun _ => none) neg_demo_target "ag" [] 5 false
      (1/4)).length ≤ 5 :=
  ⟨(claim_C4 (fun _ => none) neg_demo_target "ag" [] 5 false (1/4)).2.2.2.1,
   (claim_C4 (fun _ => none) neg_demo_target "ag" [] 5 false (1/4)).2.2.2.2.2.2⟩
